import Mathlib

/-!
Verification of the VDR analysis application.

The frontend TypeScript sources (types, constants, validation utilities and
React hooks) are embedded shallowly as Lean definitions.  The backend
analysis pipeline (archive extraction, per-document LLM extraction,
aggregation, orchestration) is not part of the available sources; where a
property depends on it, a definition marked `Modelled from the spec:` embeds
the behaviour the specification describes.
-/

/-! ## Data model (src/frontend/src/types/vdr.ts) -/

/-- Embeds the `DocumentCategory` union type: the five category values. -/
inductive DocumentCategory
  | financial
  | legal
  | commercial
  | operations
  | other
deriving DecidableEq, Repr

/-- Embeds the `AnalysisStatus` union type. -/
inductive AnalysisStatus
  | uploading
  | extracting
  | analyzing
  | complete
  | error
deriving DecidableEq, Repr

/-- Embeds the `DocumentResult` interface. -/
structure DocumentResult where
  doc : String
  category : DocumentCategory
  facts : List String
  red_flags : List String
deriving DecidableEq, Repr

/-- Embeds the `CategoryAggregate` interface; counts are non-negative
integers, so they are embedded as `Nat`. -/
structure CategoryAggregate where
  facts : Nat
  red_flags : Nat
deriving DecidableEq, Repr

/-- Embeds the `AggregateData` interface: exactly one `CategoryAggregate`
field per category value. -/
structure AggregateData where
  financial : CategoryAggregate
  legal : CategoryAggregate
  commercial : CategoryAggregate
  operations : CategoryAggregate
  other : CategoryAggregate
deriving DecidableEq, Repr

/-- Embeds the `AnalysisResult` interface; `errors` is a list of plain
strings as in the frontend type. -/
structure AnalysisResult where
  docs : List DocumentResult
  aggregate : AggregateData
  summaryText : String
  errors : List String
deriving DecidableEq, Repr

/-- Embeds the `UploadProgress` interface; `current` and `total` are
JavaScript numbers, embedded as rationals. -/
structure UploadProgress where
  current : ℚ
  total : ℚ
  status : AnalysisStatus
  message : Option String := none
deriving DecidableEq, Repr

/-! ## Constants (src/frontend/src/constants/index.ts) -/

/-- Shape of the `UPLOAD_CONFIG` constant. -/
structure UploadConfig where
  MAX_FILE_SIZE : Nat
  ALLOWED_TYPES : List String
  ALLOWED_EXTENSIONS : List String

/-- Embeds `UPLOAD_CONFIG`: 100MB limit, zip MIME types, `.zip` extension. -/
def UPLOAD_CONFIG : UploadConfig :=
  { MAX_FILE_SIZE := 100 * 1024 * 1024
    ALLOWED_TYPES := ["application/zip", "application/x-zip-compressed"]
    ALLOWED_EXTENSIONS := [".zip"] }

/-- Shape of the `ERROR_MESSAGES` constant. -/
structure ErrorMessages where
  INVALID_FILE_TYPE : String
  UPLOAD_FAILED : String
  ANALYSIS_FAILED : String
  EXPORT_FAILED : String
  NETWORK_ERROR : String
  FILE_TOO_LARGE : String

/-- Embeds `ERROR_MESSAGES`. -/
def ERROR_MESSAGES : ErrorMessages :=
  { INVALID_FILE_TYPE := "Please upload a valid ZIP file"
    UPLOAD_FAILED := "Failed to upload file. Please try again."
    ANALYSIS_FAILED := "Failed to analyze documents. Please try again."
    EXPORT_FAILED := "Failed to export report. Please try again."
    NETWORK_ERROR := "Network error. Please check your connection."
    FILE_TOO_LARGE := "File size exceeds the maximum limit of 100MB" }

/-- One stage entry of the `ANALYSIS_STAGES` constant. -/
structure StageInfo where
  label : String
  message : String
  progress : ℚ

/-- Embeds `ANALYSIS_STAGES.UPLOADING`. -/
def ANALYSIS_STAGES_UPLOADING : StageInfo :=
  ⟨"Uploading", "Uploading and extracting...", 20⟩

/-- Embeds `ANALYSIS_STAGES.EXTRACTING`. -/
def ANALYSIS_STAGES_EXTRACTING : StageInfo :=
  ⟨"Extracting", "Extracting documents...", 40⟩

/-- Embeds `ANALYSIS_STAGES.ANALYZING`. -/
def ANALYSIS_STAGES_ANALYZING : StageInfo :=
  ⟨"Analyzing", "Analysing documents...", 70⟩

/-- Embeds `ANALYSIS_STAGES.COMPLETE`. -/
def ANALYSIS_STAGES_COMPLETE : StageInfo :=
  ⟨"Complete", "Analysis complete!", 100⟩

/-! ## File validation (validateFile in the validation utilities) -/

/-- The slice of the DOM `File` object that `validateFile` reads:
`name`, MIME `type` and `size` in bytes. -/
structure FileInfo where
  name : String
  type : String
  size : Nat

/-- Return shape of `validateFile`. -/
structure ValidationResult where
  valid : Bool
  error : Option String := none
deriving DecidableEq, Repr

/-- Embeds JavaScript `String.prototype.toLowerCase` (character-wise
lowercasing, faithful on ASCII names). -/
def jsToLowerCase (s : String) : String :=
  ⟨s.data.map Char.toLower⟩

/-- Embeds JavaScript `String.prototype.endsWith`: the second string is a
suffix of the first. -/
def jsEndsWith (s suffixStr : String) : Bool :=
  suffixStr.data.isSuffixOf s.data

/-- Embeds `validateFile`: the MIME-type / extension check first, then the
size check against `UPLOAD_CONFIG.MAX_FILE_SIZE`. -/
def validateFile (file : FileInfo) : ValidationResult :=
  let isValidType := UPLOAD_CONFIG.ALLOWED_TYPES.contains file.type
  let hasValidExtension :=
    UPLOAD_CONFIG.ALLOWED_EXTENSIONS.any
      (fun ext => jsEndsWith (jsToLowerCase file.name) ext)
  if !isValidType && !hasValidExtension then
    { valid := false, error := some ERROR_MESSAGES.INVALID_FILE_TYPE }
  else if file.size > UPLOAD_CONFIG.MAX_FILE_SIZE then
    { valid := false, error := some ERROR_MESSAGES.FILE_TOO_LARGE }
  else
    { valid := true }

/-! ## ProgressIndicator percentage computation -/

/-- Embeds the percentage computation of `ProgressIndicator`:
`progress.total > 0 ? (progress.current / progress.total) * 100 : 0`. -/
def displayedPercentage (progress : UploadProgress) : ℚ :=
  if progress.total > 0 then progress.current / progress.total * 100 else 0

/-! ## useAnalysis hook (src/frontend/src/hooks/useAnalysis.ts) -/

/-- Outcome of `apiService.analyzeDocuments` as observed by `analyzeFile`:
either an `AnalysisResult`, or a thrown `ApiError` (HTTP errors and network
errors are both wrapped into `ApiError` by the service), or any other thrown
value. -/
inductive ApiOutcome
  | ok (r : AnalysisResult)
  | apiErr (message : String)
  | otherErr
deriving DecidableEq, Repr

/-- Final state of the `useAnalysis` hook after one `analyzeFile` run. -/
structure HookState where
  isAnalyzing : Bool
  progress : UploadProgress
  result : Option AnalysisResult
  error : Option String
deriving DecidableEq, Repr

/-- Progress value set by the catch block of `analyzeFile`. -/
def errorStageProgress : UploadProgress :=
  { current := 0, total := 0, status := .error,
    message := some ERROR_MESSAGES.ANALYSIS_FAILED }

/-- Embeds the `analyzeFile` function of `useAnalysis`: state after the run
completes, as a function of the uploaded file and of the API call outcome.
Validation failure throws an `ApiError` carrying the validation message,
which the catch block turns into the `error` state; the API outcome is only
consulted when validation passes. -/
def analyzeFileRun (file : FileInfo) (api : ApiOutcome) : HookState :=
  let validation := validateFile file
  if validation.valid then
    match api with
    | .ok r =>
        { isAnalyzing := false
          progress :=
            { current := ANALYSIS_STAGES_COMPLETE.progress, total := 100,
              status := .complete,
              message := some (ANALYSIS_STAGES_COMPLETE.message
                ++ " Processed " ++ toString r.docs.length ++ " documents") }
          result := some r
          error := none }
    | .apiErr m =>
        { isAnalyzing := false, progress := errorStageProgress,
          result := none, error := some m }
    | .otherErr =>
        { isAnalyzing := false, progress := errorStageProgress,
          result := none, error := some ERROR_MESSAGES.ANALYSIS_FAILED }
  else
    { isAnalyzing := false, progress := errorStageProgress,
      result := none,
      error := some (validation.error.getD ERROR_MESSAGES.INVALID_FILE_TYPE) }

/-! ## Spec-modelled backend pipeline

The backend services the specification describes (ArchiveExtractor,
ExtractionClient, Aggregator, Orchestrator) are not among the available
sources; the definitions below are modelled from the specification text. -/

/-- Modelled from the spec: the `ArchiveError` failure class of the
ArchiveExtractor — corrupt/unreadable archive or oversized archive. -/
inductive ArchiveError
  | unreadable
  | oversized
deriving DecidableEq, Repr

/-- Modelled from the spec: one entry of the submitted archive. -/
structure ArchiveEntry where
  name : String
  extension : String
  isDir : Bool
deriving DecidableEq, Repr

/-- Modelled from the spec: the submitted archive — whether its bytes are
readable as an archive, its total size in bytes, and its entries in
enumeration order. -/
structure ArchiveInput where
  corrupt : Bool
  totalSize : Nat
  entries : List ArchiveEntry
deriving DecidableEq, Repr

/-- Modelled from the spec: the supported extensions
pdf, docx, xlsx, xls, csv, txt. -/
def SUPPORTED_EXTENSIONS : List String :=
  ["pdf", "docx", "xlsx", "xls", "csv", "txt"]

/-- Modelled from the spec: the ArchiveExtractor default maximum total
archive size of 25MB. -/
def DEFAULT_MAX_ARCHIVE_SIZE : Nat := 25 * 1024 * 1024

/-- Modelled from the spec: the archive entries the ArchiveExtractor keeps —
non-directory entries whose extension is supported, in enumeration order. -/
def supportedEntries (entries : List ArchiveEntry) : List ArchiveEntry :=
  entries.filter (fun e => !e.isDir && SUPPORTED_EXTENSIONS.contains e.extension)

/-- Modelled from the spec: terminal per-document outcome collected by the
Orchestrator — either a `DocumentResult` (success or degraded) or an
irrecoverable per-document failure recorded as an error entry. -/
inductive DocOutcome
  | extracted (r : DocumentResult)
  | failed (doc message : String)
deriving DecidableEq, Repr

/-- Modelled from the spec: the zero `AggregateData` (all category counts
zero). -/
def zeroAggregate : AggregateData :=
  ⟨⟨0, 0⟩, ⟨0, 0⟩, ⟨0, 0⟩, ⟨0, 0⟩, ⟨0, 0⟩⟩

/-- Modelled from the spec: one step of the Aggregator fold — increment the
counts of the result category by the lengths of its facts and red flags. -/
def bumpAggregate (agg : AggregateData) (r : DocumentResult) : AggregateData :=
  match r.category with
  | .financial => { agg with financial :=
      ⟨agg.financial.facts + r.facts.length,
       agg.financial.red_flags + r.red_flags.length⟩ }
  | .legal => { agg with legal :=
      ⟨agg.legal.facts + r.facts.length,
       agg.legal.red_flags + r.red_flags.length⟩ }
  | .commercial => { agg with commercial :=
      ⟨agg.commercial.facts + r.facts.length,
       agg.commercial.red_flags + r.red_flags.length⟩ }
  | .operations => { agg with operations :=
      ⟨agg.operations.facts + r.facts.length,
       agg.operations.red_flags + r.red_flags.length⟩ }
  | .other => { agg with other :=
      ⟨agg.other.facts + r.facts.length,
       agg.other.red_flags + r.red_flags.length⟩ }

/-- Modelled from the spec: the Aggregator — a pure fold over the ordered
sequence of `DocumentResult`. -/
def computeAggregate (docs : List DocumentResult) : AggregateData :=
  docs.foldl bumpAggregate zeroAggregate

/-- Modelled from the spec: the Orchestrator writes each completed task's
outcome into a pre-sized results array at the task's original enumeration
index; `cs` lists the completions in completion-time order. -/
def applyCompletions {α : Type} (slots : List (Option α)) (cs : List (Nat × α)) :
    List (Option α) :=
  cs.foldl (fun acc c => acc.set c.1 (some c.2)) slots

/-- Reads a filled slot as a `DocumentResult` entry for `docs`. -/
def slotDoc : Option DocOutcome → Option DocumentResult
  | some (.extracted r) => some r
  | _ => none

/-- Reads a filled slot as an error entry for `errors`, attributed to the
failing document. -/
def slotError : Option DocOutcome → Option String
  | some (.failed d m) => some (d ++ ": " ++ m)
  | _ => none

/-- Modelled from the spec: the pre-sized results array after all `n`
dispatched tasks have completed, with completions arriving in the order
given by `schedule` and written at the task's original index. -/
def pipelineSlots (n : Nat) (outcome : Nat → DocOutcome) (schedule : List Nat) :
    List (Option DocOutcome) :=
  applyCompletions (List.replicate n none) (schedule.map (fun i => (i, outcome i)))

/-- Modelled from the spec: the final `AnalysisResult` the Orchestrator
assembles from the filled result slots, the Aggregator fold and the
summary. -/
def assembleResult (n : Nat) (outcome : Nat → DocOutcome) (schedule : List Nat)
    (summarize : List DocumentResult → AggregateData → String) : AnalysisResult :=
  { docs := (pipelineSlots n outcome schedule).filterMap slotDoc
    aggregate := computeAggregate ((pipelineSlots n outcome schedule).filterMap slotDoc)
    summaryText := summarize ((pipelineSlots n outcome schedule).filterMap slotDoc)
      (computeAggregate ((pipelineSlots n outcome schedule).filterMap slotDoc))
    errors := (pipelineSlots n outcome schedule).filterMap slotError }

/-- Modelled from the spec: the Orchestrator. Fails with `ArchiveError` when
the archive is unreadable or exceeds the maximum total size; otherwise every
supported entry is dispatched, completions arrive in completion-time order
and are written into the results array by original index, and the final
`AnalysisResult` is assembled. -/
def runPipeline (input : ArchiveInput) (maxTotal : Nat)
    (outcome : Nat → DocOutcome) (schedule : List Nat)
    (summarize : List DocumentResult → AggregateData → String) :
    Except ArchiveError AnalysisResult :=
  if input.corrupt then .error .unreadable
  else if input.totalSize > maxTotal then .error .oversized
  else .ok (assembleResult (supportedEntries input.entries).length
    outcome schedule summarize)

/-! ## Spec-modelled ExtractionClient -/

/-- Modelled from the spec: the parsed shape of a schema-conformant LLM
extraction response before length enforcement. -/
structure LLMDocResponse where
  facts : List String
  red_flags : List String
deriving DecidableEq, Repr

/-- Modelled from the spec: what one LLM invocation attempt yields — a
parseable structured response, a connected-but-malformed response, or a
transport/timeout failure. -/
inductive LLMReply
  | parsed (resp : LLMDocResponse)
  | malformed
  | transportFail
deriving DecidableEq, Repr

/-- Modelled from the spec: schema enforcement on a parsed response —
over-length arrays are truncated to five entries, under-length arrays are
accepted as-is down to zero. -/
def enforceSchema (docName : String) (cat : DocumentCategory)
    (resp : LLMDocResponse) : DocumentResult :=
  { doc := docName, category := cat,
    facts := resp.facts.take 5, red_flags := resp.red_flags.take 5 }

/-- Modelled from the spec: the tagged result of the ExtractionClient retry
state machine — Success, Degraded or TransportFailed. -/
inductive ExtractOutcome
  | success (r : DocumentResult)
  | degraded (r : DocumentResult)
  | transportFailed (message : String)
deriving DecidableEq, Repr

/-- Modelled from the spec: the ExtractionClient retry sequence
Attempt1 → Attempt2 (retry) → AttemptFallback → exhaustion. `r1`, `r2`,
`r3` are the replies of the successive attempts. The first parseable reply
yields a schema-enforced `DocumentResult`; when all attempts fail the client
degrades to an empty result, unless the transport never connected on any
attempt, which is the only case surfaced as a transport failure. -/
def extractDocument (docName : String) (cat : DocumentCategory)
    (r1 r2 r3 : LLMReply) : ExtractOutcome :=
  match r1 with
  | .parsed resp => .success (enforceSchema docName cat resp)
  | _ =>
    match r2 with
    | .parsed resp => .success (enforceSchema docName cat resp)
    | _ =>
      match r3 with
      | .parsed resp => .success (enforceSchema docName cat resp)
      | _ =>
        if r1 = .transportFail ∧ r2 = .transportFail ∧ r3 = .transportFail then
          .transportFailed "LLM unreachable"
        else
          .degraded { doc := docName, category := cat, facts := [], red_flags := [] }

/-- Modelled from the spec: how the Orchestrator records an ExtractionClient
outcome — Success and Degraded are both recorded among `docs`; only
TransportFailed becomes an error entry for that document. -/
def recordOutcome (docName : String) (o : ExtractOutcome) : DocOutcome :=
  match o with
  | .success r => .extracted r
  | .degraded r => .extracted r
  | .transportFailed m => .failed docName m

/-! ## Mapping view of AggregateData and the category enumeration -/

/-- The five category values in declaration order. -/
def allCategories : List DocumentCategory :=
  [.financial, .legal, .commercial, .operations, .other]

/-- Reads `AggregateData` as the mapping from category values to
`CategoryAggregate` that the TypeScript object represents. -/
def AggregateData.get (a : AggregateData) : DocumentCategory → CategoryAggregate
  | .financial => a.financial
  | .legal => a.legal
  | .commercial => a.commercial
  | .operations => a.operations
  | .other => a.other

/-- Total fact count of an `AggregateData` across the five categories. -/
def sumFacts (a : AggregateData) : Nat :=
  a.financial.facts + a.legal.facts + a.commercial.facts
    + a.operations.facts + a.other.facts

/-- Total red-flag count of an `AggregateData` across the five categories. -/
def sumRedFlags (a : AggregateData) : Nat :=
  a.financial.red_flags + a.legal.red_flags + a.commercial.red_flags
    + a.operations.red_flags + a.other.red_flags

/-! ## Helper lemmas for the indexed completion model -/

theorem applyCompletions_cons {α : Type} (slots : List (Option α)) (c : Nat × α)
    (cs : List (Nat × α)) :
    applyCompletions slots (c :: cs)
      = applyCompletions (slots.set c.1 (some c.2)) cs := rfl

theorem length_applyCompletions {α : Type} (slots : List (Option α))
    (cs : List (Nat × α)) :
    (applyCompletions slots cs).length = slots.length := by
  induction cs generalizing slots with
  | nil => rfl
  | cons c cs ih =>
      rw [applyCompletions_cons, ih, List.length_set]

theorem applyCompletions_getElem?_of_not_mem {α : Type} (slots : List (Option α))
    (cs : List (Nat × α)) (i : Nat) (h : ∀ p ∈ cs, p.1 ≠ i) :
    (applyCompletions slots cs)[i]? = slots[i]? := by
  induction cs generalizing slots with
  | nil => rfl
  | cons c cs ih =>
      rw [applyCompletions_cons,
        ih _ (fun p hp => h p (List.mem_cons_of_mem _ hp))]
      exact List.getElem?_set_ne (h c (List.mem_cons_self c cs) :)

theorem applyCompletions_getElem?_of_mem {α : Type} (f : Nat → α)
    (slots : List (Option α)) (cs : List (Nat × α)) (i : Nat)
    (hval : ∀ p ∈ cs, p.2 = f p.1) (hnd : (cs.map Prod.fst).Nodup)
    (hmem : i ∈ cs.map Prod.fst) (hlt : i < slots.length) :
    (applyCompletions slots cs)[i]? = some (some (f i)) := by
  induction cs generalizing slots with
  | nil => simp at hmem
  | cons c cs ih =>
      rw [List.map_cons, List.nodup_cons] at hnd
      rw [List.map_cons] at hmem
      rw [applyCompletions_cons]
      rcases List.mem_cons.mp hmem with hi | hi
      · have hnot : ∀ p ∈ cs, p.1 ≠ i := by
          intro p hp hpi
          apply hnd.1
          have hmm := List.mem_map_of_mem Prod.fst hp
          rw [hpi, hi] at hmm
          exact hmm
        rw [applyCompletions_getElem?_of_not_mem _ _ _ hnot, hi,
          List.getElem?_set_self (hi ▸ hlt),
          hval c (List.mem_cons_self c cs), ← hi]
      · exact ih _ (fun p hp => hval p (List.mem_cons_of_mem _ hp)) hnd.2
          hi (by simpa using hlt)

theorem applyCompletions_perm {α : Type} (n : Nat) (f : Nat → α)
    (cs : List (Nat × α))
    (hperm : cs.Perm ((List.range n).map (fun i => (i, f i)))) :
    applyCompletions (List.replicate n (none : Option α)) cs
      = (List.range n).map (fun i => some (f i)) := by
  have hval : ∀ p ∈ cs, p.2 = f p.1 := by
    intro p hp
    have := hperm.mem_iff.mp hp
    obtain ⟨i, _, hi⟩ := List.mem_map.mp this
    rw [← hi]
  have hfst : (cs.map Prod.fst).Perm (List.range n) := by
    have h := hperm.map Prod.fst
    rw [List.map_map] at h
    have hid : (Prod.fst ∘ fun i => (i, f i)) = id := funext (fun i => rfl)
    rw [hid, List.map_id] at h
    exact h
  have hnd : (cs.map Prod.fst).Nodup :=
    hfst.nodup_iff.mpr (List.nodup_range n)
  apply List.ext_getElem?
  intro i
  by_cases hi : i < n
  · rw [applyCompletions_getElem?_of_mem f _ _ _ hval hnd
      (hfst.mem_iff.mpr (List.mem_range.mpr hi)) (by simpa using hi)]
    rw [List.getElem?_map, List.getElem?_range hi]
    rfl
  · have h1 : (applyCompletions (List.replicate n (none : Option α)) cs).length ≤ i := by
      rw [length_applyCompletions, List.length_replicate]
      omega
    have h2 : ((List.range n).map (fun i => some (f i))).length ≤ i := by
      rw [List.length_map, List.length_range]
      omega
    rw [List.getElem?_eq_none h1, List.getElem?_eq_none h2]

theorem filterMap_length_split {α β γ : Type} (p : α → Option β) (q : α → Option γ)
    (l : List α) (h : ∀ x ∈ l, ((p x).isSome ∧ (q x) = none)
      ∨ ((p x) = none ∧ (q x).isSome)) :
    (l.filterMap p).length + (l.filterMap q).length = l.length := by
  induction l with
  | nil => rfl
  | cons a l ih =>
      have ha := h a (List.mem_cons_self a l)
      have ihl := ih (fun x hx => h x (List.mem_cons_of_mem _ hx))
      rcases ha with ⟨hp, hq⟩ | ⟨hp, hq⟩
      · obtain ⟨b, hb⟩ := Option.isSome_iff_exists.mp hp
        simp only [List.filterMap_cons, hb, hq, List.length_cons]
        omega
      · obtain ⟨c, hc⟩ := Option.isSome_iff_exists.mp hq
        simp only [List.filterMap_cons, hp, hc, List.length_cons]
        omega

theorem filterMap_congr_some {α β : Type} (F : α → Option β) (g : α → β)
    (l : List α) (h : ∀ x ∈ l, F x = some (g x)) :
    l.filterMap F = l.map g := by
  induction l with
  | nil => rfl
  | cons a l ih =>
      simp only [List.filterMap_cons, h a (List.mem_cons_self a l), List.map_cons]
      rw [ih (fun x hx => h x (List.mem_cons_of_mem _ hx))]

theorem pipelineSlots_perm (n : Nat) (outcome : Nat → DocOutcome)
    (schedule : List Nat) (hsched : schedule.Perm (List.range n)) :
    pipelineSlots n outcome schedule
      = (List.range n).map (fun i => some (outcome i)) := by
  apply applyCompletions_perm n outcome
  have h := hsched.map (fun i => (i, outcome i))
  exact h

theorem runPipeline_ok (input : ArchiveInput) (maxTotal : Nat)
    (outcome : Nat → DocOutcome) (schedule : List Nat)
    (summarize : List DocumentResult → AggregateData → String)
    (hread : input.corrupt = false) (hsize : input.totalSize ≤ maxTotal) :
    runPipeline input maxTotal outcome schedule summarize
      = .ok (assembleResult (supportedEntries input.entries).length
          outcome schedule summarize) := by
  rw [runPipeline, if_neg (by rw [hread]; exact Bool.false_ne_true),
    if_neg (not_lt.mpr hsize)]

/-! ## Helper lemmas for the aggregate fold -/

theorem sumFacts_bumpAggregate (a : AggregateData) (r : DocumentResult) :
    sumFacts (bumpAggregate a r) = sumFacts a + r.facts.length := by
  cases hc : r.category <;> simp [bumpAggregate, hc, sumFacts] <;> omega

theorem sumRedFlags_bumpAggregate (a : AggregateData) (r : DocumentResult) :
    sumRedFlags (bumpAggregate a r) = sumRedFlags a + r.red_flags.length := by
  cases hc : r.category <;> simp [bumpAggregate, hc, sumRedFlags] <;> omega

theorem sumFacts_foldl (docs : List DocumentResult) (a : AggregateData) :
    sumFacts (docs.foldl bumpAggregate a)
      = sumFacts a + (docs.map (fun d => d.facts.length)).sum := by
  induction docs generalizing a with
  | nil => simp
  | cons d docs ih =>
      rw [List.foldl_cons, ih, sumFacts_bumpAggregate]
      simp only [List.map_cons, List.sum_cons]
      omega

theorem sumRedFlags_foldl (docs : List DocumentResult) (a : AggregateData) :
    sumRedFlags (docs.foldl bumpAggregate a)
      = sumRedFlags a + (docs.map (fun d => d.red_flags.length)).sum := by
  induction docs generalizing a with
  | nil => simp
  | cons d docs ih =>
      rw [List.foldl_cons, ih, sumRedFlags_bumpAggregate]
      simp only [List.map_cons, List.sum_cons]
      omega

/-! ## Helper lemmas for the ExtractionClient state machine -/

theorem enforceSchema_bounds (docName : String) (cat : DocumentCategory)
    (resp : LLMDocResponse) :
    (enforceSchema docName cat resp).facts.length ≤ 5 ∧
    (enforceSchema docName cat resp).red_flags.length ≤ 5 := by
  constructor <;> simp only [enforceSchema, List.length_take] <;> omega

theorem extractDocument_shape (docName : String) (cat : DocumentCategory)
    (r1 r2 r3 : LLMReply) :
    (∃ resp, extractDocument docName cat r1 r2 r3
        = .success (enforceSchema docName cat resp)) ∨
    extractDocument docName cat r1 r2 r3
        = .degraded ⟨docName, cat, [], []⟩ ∨
    extractDocument docName cat r1 r2 r3
        = .transportFailed "LLM unreachable" := by
  cases r1 <;> cases r2 <;> cases r3 <;>
    first
      | exact Or.inl ⟨_, rfl⟩
      | exact Or.inr (Or.inl rfl)
      | exact Or.inr (Or.inr rfl)

theorem extractDocument_transport_iff (docName : String) (cat : DocumentCategory)
    (r1 r2 r3 : LLMReply) :
    (∃ m, extractDocument docName cat r1 r2 r3 = .transportFailed m) ↔
      (r1 = .transportFail ∧ r2 = .transportFail ∧ r3 = .transportFail) := by
  cases r1 <;> cases r2 <;> cases r3 <;> simp [extractDocument]

/-! ## Claim theorems -/

/-- C8: `validateFile` returns valid exactly when the file has a zip MIME
type or a case-insensitive `.zip` extension and its size is at most
`UPLOAD_CONFIG.MAX_FILE_SIZE`; a file failing both the MIME-type and the
extension check is rejected with the `INVALID_FILE_TYPE` message even when
it is also oversized, because the type check precedes the size check. -/
theorem c8_validateFile_characterization (f : FileInfo) :
    ((validateFile f).valid = true ↔
      ((f.type = "application/zip" ∨ f.type = "application/x-zip-compressed"
          ∨ jsEndsWith (jsToLowerCase f.name) ".zip" = true)
        ∧ f.size ≤ UPLOAD_CONFIG.MAX_FILE_SIZE)) ∧
    (¬(f.type = "application/zip" ∨ f.type = "application/x-zip-compressed"
        ∨ jsEndsWith (jsToLowerCase f.name) ".zip" = true) →
      validateFile f = ⟨false, some ERROR_MESSAGES.INVALID_FILE_TYPE⟩) := by
  have hty : (UPLOAD_CONFIG.ALLOWED_TYPES.contains f.type = true)
      ↔ (f.type = "application/zip" ∨ f.type = "application/x-zip-compressed") := by
    simp [UPLOAD_CONFIG]
  have hext : (UPLOAD_CONFIG.ALLOWED_EXTENSIONS.any
        (fun ext => jsEndsWith (jsToLowerCase f.name) ext) = true)
      ↔ jsEndsWith (jsToLowerCase f.name) ".zip" = true := by
    simp [UPLOAD_CONFIG]
  constructor
  · rw [validateFile]
    split_ifs with h1 h2
    · simp only [Bool.and_eq_true, Bool.not_eq_true'] at h1
      simp only [show (false : Bool) ≠ true from Bool.false_ne_true, false_iff]
      intro hcon
      rcases hcon.1 with h | h | h
      · exact absurd (hty.mpr (Or.inl h)) (by rw [h1.1]; exact Bool.false_ne_true)
      · exact absurd (hty.mpr (Or.inr h)) (by rw [h1.1]; exact Bool.false_ne_true)
      · exact absurd (hext.mpr h) (by rw [h1.2]; exact Bool.false_ne_true)
    · simp only [show (false : Bool) ≠ true from Bool.false_ne_true, false_iff]
      intro hcon
      omega
    · simp only [true_iff]
      refine ⟨?_, by omega⟩
      rw [Bool.and_eq_true, Bool.not_eq_true', Bool.not_eq_true'] at h1
      rcases Bool.eq_false_or_eq_true (UPLOAD_CONFIG.ALLOWED_TYPES.contains f.type)
        with hc | hc
      · rcases hty.mp hc with h | h
        · exact Or.inl h
        · exact Or.inr (Or.inl h)
      · rcases Bool.eq_false_or_eq_true (UPLOAD_CONFIG.ALLOWED_EXTENSIONS.any
            (fun ext => jsEndsWith (jsToLowerCase f.name) ext)) with he | he
        · exact Or.inr (Or.inr (hext.mp he))
        · exact absurd ⟨hc, he⟩ h1
  · intro hcon
    rw [validateFile, if_pos]
    rw [Bool.and_eq_true, Bool.not_eq_true', Bool.not_eq_true']
    constructor
    · rcases Bool.eq_false_or_eq_true (UPLOAD_CONFIG.ALLOWED_TYPES.contains f.type)
        with hc | hc
      · rcases hty.mp hc with h | h
        · exact absurd (Or.inl h) hcon
        · exact absurd (Or.inr (Or.inl h)) hcon
      · exact hc
    · rcases Bool.eq_false_or_eq_true (UPLOAD_CONFIG.ALLOWED_EXTENSIONS.any
          (fun ext => jsEndsWith (jsToLowerCase f.name) ext)) with he | he
      · exact absurd (Or.inr (Or.inr (hext.mp he))) hcon
      · exact he

/-- Witness for C8: a plain-text file that is also oversized is rejected
with the `INVALID_FILE_TYPE` message, not the size message. -/
theorem c8_validateFile_characterization_witness :
    validateFile ⟨"notes.txt", "text/plain", 200 * 1024 * 1024⟩
      = ⟨false, some ERROR_MESSAGES.INVALID_FILE_TYPE⟩ :=
  (c8_validateFile_characterization ⟨"notes.txt", "text/plain", 200 * 1024 * 1024⟩).2
    (by decide)

/-- C10: the percentage displayed by `ProgressIndicator` is defined for
every `UploadProgress` value: it is 0 when `total` is 0, and
`current / total * 100` when `total` is positive. -/
theorem c10_displayedPercentage_total (p : UploadProgress) :
    (p.total = 0 → displayedPercentage p = 0) ∧
    (0 < p.total → displayedPercentage p = p.current / p.total * 100) := by
  constructor
  · intro h
    simp [displayedPercentage, h]
  · intro h
    simp [displayedPercentage, h]

/-- Witness for C10: with `total = 0` the percentage is 0; with
`current = 50` and `total = 100` it is 50. -/
theorem c10_displayedPercentage_total_witness :
    displayedPercentage ⟨30, 0, .error, none⟩ = 0 ∧
    displayedPercentage ⟨50, 100, .analyzing, none⟩ = 50 := by
  constructor
  · exact (c10_displayedPercentage_total ⟨30, 0, .error, none⟩).1 rfl
  · rw [(c10_displayedPercentage_total ⟨50, 100, .analyzing, none⟩).2 (by norm_num)]
    norm_num

/-- C4: every `DocumentResult` produced by schema enforcement has at most 5
facts and at most 5 red flags, over-length arrays being truncated, while
under-length arrays (down to zero entries) are passed through unchanged. -/
theorem c4_schema_length_bounds (docName : String) (cat : DocumentCategory)
    (resp : LLMDocResponse) :
    (enforceSchema docName cat resp).facts.length ≤ 5 ∧
    (enforceSchema docName cat resp).red_flags.length ≤ 5 ∧
    (resp.facts.length ≤ 5 → (enforceSchema docName cat resp).facts = resp.facts) ∧
    (resp.red_flags.length ≤ 5 →
      (enforceSchema docName cat resp).red_flags = resp.red_flags) := by
  refine ⟨?_, ?_, ?_, ?_⟩
  · simp only [enforceSchema, List.length_take]
    omega
  · simp only [enforceSchema, List.length_take]
    omega
  · intro h
    simp [enforceSchema, List.take_of_length_le h]
  · intro h
    simp [enforceSchema, List.take_of_length_le h]

/-- Witness for C4: an under-length facts array is kept as-is and an
over-length red-flags array is cut to the bound. -/
theorem c4_schema_length_bounds_witness :
    (enforceSchema "a.txt" .other ⟨["f1"], ["r1", "r2", "r3", "r4", "r5", "r6"]⟩).facts
      = ["f1"] ∧
    (enforceSchema "a.txt" .other
      ⟨["f1"], ["r1", "r2", "r3", "r4", "r5", "r6"]⟩).red_flags.length ≤ 5 := by
  constructor
  · exact (c4_schema_length_bounds "a.txt" .other
      ⟨["f1"], ["r1", "r2", "r3", "r4", "r5", "r6"]⟩).2.2.1 (by decide)
  · exact (c4_schema_length_bounds "a.txt" .other
      ⟨["f1"], ["r1", "r2", "r3", "r4", "r5", "r6"]⟩).2.1

/-- C7: the category type has exactly the five values financial, legal,
commercial, operations, other; every `DocumentResult` category is one of
them; and an `AggregateData` assigns exactly one `CategoryAggregate` to each
of the five — its values on the five categories determine it completely, so
there are no missing and no extra keys. -/
theorem c7_five_categories_exact :
    allCategories.Nodup ∧ allCategories.length = 5 ∧
    (∀ c : DocumentCategory, c ∈ allCategories) ∧
    (∀ r : DocumentResult, r.category ∈ allCategories) ∧
    (∀ a b : AggregateData, (∀ c ∈ allCategories, a.get c = b.get c) → a = b) := by
  refine ⟨by decide, rfl, ?_, ?_, ?_⟩
  · intro c
    cases c <;> simp [allCategories]
  · intro r
    cases h : r.category <;> simp [allCategories]
  · intro a b h
    obtain ⟨af, al, ac, ao, aot⟩ := a
    obtain ⟨bf, bl, bc, bo, bot⟩ := b
    have h1 := h .financial (by simp [allCategories])
    have h2 := h .legal (by simp [allCategories])
    have h3 := h .commercial (by simp [allCategories])
    have h4 := h .operations (by simp [allCategories])
    have h5 := h .other (by simp [allCategories])
    simp only [AggregateData.get] at h1 h2 h3 h4 h5
    rw [h1, h2, h3, h4, h5]

/-- Witness for C7: the extensionality component applied at the zero
aggregate and at the Aggregator fold over the empty batch. -/
theorem c7_five_categories_exact_witness :
    zeroAggregate = computeAggregate [] :=
  c7_five_categories_exact.2.2.2.2 zeroAggregate (computeAggregate [])
    (fun _ _ => rfl)

/-- Counterexample for C1: the upload boundary does not enforce a 25MB
limit — a 26MB zip file passes `validateFile`, and the configured frontend
maximum is not 25MB. -/
theorem c1_counterexample :
    (validateFile ⟨"archive.zip", "application/zip", 26 * 1024 * 1024⟩).valid
      = true ∧
    25 * 1024 * 1024 < 26 * 1024 * 1024 ∧
    UPLOAD_CONFIG.MAX_FILE_SIZE ≠ 25 * 1024 * 1024 := by
  refine ⟨by decide, by decide, by decide⟩

/-- C1 (amended): an archive whose total size exceeds the backend's
configured maximum fails with `ArchiveError` and no `AnalysisResult` is
produced; the size limit enforced at the frontend upload boundary is 100MB,
and `validateFile` rejects every file above it. -/
theorem c1_oversize_archive_fails (input : ArchiveInput) (maxTotal : Nat)
    (outcome : Nat → DocOutcome) (schedule : List Nat)
    (summarize : List DocumentResult → AggregateData → String)
    (hover : maxTotal < input.totalSize) :
    (∃ e, runPipeline input maxTotal outcome schedule summarize = .error e) ∧
    (∀ res, runPipeline input maxTotal outcome schedule summarize ≠ .ok res) ∧
    UPLOAD_CONFIG.MAX_FILE_SIZE = 100 * 1024 * 1024 ∧
    (∀ f : FileInfo, UPLOAD_CONFIG.MAX_FILE_SIZE < f.size →
      (validateFile f).valid = false) := by
  have hrun : ∃ e, runPipeline input maxTotal outcome schedule summarize
      = .error e := by
    rw [runPipeline]
    rcases Bool.eq_false_or_eq_true input.corrupt with hc | hc
    · rw [hc]
      exact ⟨.unreadable, by rw [if_pos rfl]⟩
    · rw [hc]
      exact ⟨.oversized, by rw [if_neg (by exact Bool.false_ne_true),
        if_pos hover]⟩
  refine ⟨hrun, ?_, rfl, ?_⟩
  · intro res hres
    obtain ⟨e, he⟩ := hrun
    rw [hres] at he
    exact Except.noConfusion he
  · intro f hf
    simp only [validateFile]
    split_ifs with h1
    · rfl
    · rfl

/-- Witness for C1: a 26MB archive is rejected by the pipeline whatever the
per-document outcomes, and a 101MB zip file is rejected at the upload
boundary. -/
theorem c1_oversize_archive_fails_witness :
    (∀ res, runPipeline ⟨false, 26 * 1024 * 1024, []⟩ DEFAULT_MAX_ARCHIVE_SIZE
        (fun _ => DocOutcome.failed "" "") [] (fun _ _ => "") ≠ .ok res) ∧
    (validateFile ⟨"big.zip", "application/zip", 101 * 1024 * 1024⟩).valid
      = false := by
  have h := c1_oversize_archive_fails ⟨false, 26 * 1024 * 1024, []⟩
    DEFAULT_MAX_ARCHIVE_SIZE (fun _ => DocOutcome.failed "" "") []
    (fun _ _ => "") (by decide)
  exact ⟨h.2.1, h.2.2.2 ⟨"big.zip", "application/zip", 101 * 1024 * 1024⟩
    (by decide)⟩

/-- C2: in the Aggregator fold and in every `AnalysisResult` the pipeline
produces, total facts across the five categories equal the sum of per-
document fact counts, and symmetrically for red flags. -/
theorem c2_aggregate_totals :
    (∀ docs : List DocumentResult,
      sumFacts (computeAggregate docs)
          = (docs.map (fun d => d.facts.length)).sum ∧
      sumRedFlags (computeAggregate docs)
          = (docs.map (fun d => d.red_flags.length)).sum) ∧
    (∀ (input : ArchiveInput) (maxTotal : Nat) (outcome : Nat → DocOutcome)
      (schedule : List Nat)
      (summarize : List DocumentResult → AggregateData → String)
      (res : AnalysisResult),
      runPipeline input maxTotal outcome schedule summarize = .ok res →
      sumFacts res.aggregate = (res.docs.map (fun d => d.facts.length)).sum ∧
      sumRedFlags res.aggregate
        = (res.docs.map (fun d => d.red_flags.length)).sum) := by
  have base : ∀ docs : List DocumentResult,
      sumFacts (computeAggregate docs)
          = (docs.map (fun d => d.facts.length)).sum ∧
      sumRedFlags (computeAggregate docs)
          = (docs.map (fun d => d.red_flags.length)).sum := by
    intro docs
    constructor
    · rw [computeAggregate, sumFacts_foldl]
      simp [zeroAggregate, sumFacts]
    · rw [computeAggregate, sumRedFlags_foldl]
      simp [zeroAggregate, sumRedFlags]
  refine ⟨base, ?_⟩
  intro input maxTotal outcome schedule summarize res h
  rw [runPipeline] at h
  rcases Bool.eq_false_or_eq_true input.corrupt with hc | hc
  · rw [hc, if_pos rfl] at h
    exact Except.noConfusion h
  · rw [hc, if_neg (by exact Bool.false_ne_true)] at h
    rcases Nat.lt_or_ge maxTotal input.totalSize with hs | hs
    · rw [if_pos hs] at h
      exact Except.noConfusion h
    · rw [if_neg (not_lt.mpr hs)] at h
      have hres := Except.ok.inj h
      rw [← hres]
      exact base _

/-- Witness for C2: the invariant at the empty batch, through the pipeline
component of the theorem. -/
theorem c2_aggregate_totals_witness :
    sumFacts (AnalysisResult.mk [] zeroAggregate "no docs" []).aggregate
      = ((AnalysisResult.mk [] zeroAggregate "no docs" []).docs.map
          (fun d => d.facts.length)).sum :=
  (c2_aggregate_totals.2 ⟨false, 0, []⟩ DEFAULT_MAX_ARCHIVE_SIZE
    (fun _ => DocOutcome.failed "" "") [] (fun _ _ => "no docs")
    ⟨[], zeroAggregate, "no docs", []⟩ (by rfl)).1

/-- C3: for a readable, size-conforming, non-empty archive, once every
dispatched task has completed, the numbers of document results and of error
entries add up to the number of supported-extension entries — every document
is accounted for exactly once. -/
theorem c3_every_document_accounted (input : ArchiveInput) (maxTotal : Nat)
    (outcome : Nat → DocOutcome) (schedule : List Nat)
    (summarize : List DocumentResult → AggregateData → String)
    (hread : input.corrupt = false) (hsize : input.totalSize ≤ maxTotal)
    (hne : 0 < (supportedEntries input.entries).length)
    (hsched : schedule.Perm
      (List.range (supportedEntries input.entries).length)) :
    ∃ res, runPipeline input maxTotal outcome schedule summarize = .ok res ∧
      res.docs.length + res.errors.length
        = (supportedEntries input.entries).length := by
  refine ⟨_, runPipeline_ok input maxTotal outcome schedule summarize hread hsize,
    ?_⟩
  simp only [assembleResult]
  rw [pipelineSlots_perm _ _ _ hsched, List.filterMap_map, List.filterMap_map]
  have hsplit := filterMap_length_split
    (slotDoc ∘ (fun i => some (outcome i)))
    (slotError ∘ (fun i => some (outcome i)))
    (List.range (supportedEntries input.entries).length)
    (fun i _ => by
      cases houtcome : outcome i with
      | extracted r =>
          exact Or.inl ⟨by simp [slotDoc, houtcome, Function.comp],
            by simp [slotError, houtcome, Function.comp]⟩
      | failed d m =>
          exact Or.inr ⟨by simp [slotDoc, houtcome, Function.comp],
            by simp [slotError, houtcome, Function.comp]⟩)
  rw [hsplit, List.length_range]

/-- Witness for C3: a two-entry archive in which one document succeeds and
one fails accounts for both. -/
theorem c3_every_document_accounted_witness :
    ∃ res, runPipeline ⟨false, 1000, [⟨"a.txt", "txt", false⟩, ⟨"b.pdf", "pdf", false⟩]⟩
        DEFAULT_MAX_ARCHIVE_SIZE
        (fun i => if i = 0 then DocOutcome.extracted ⟨"a.txt", .other, [], []⟩
          else DocOutcome.failed "b.pdf" "unparseable")
        [1, 0] (fun _ _ => "s") = .ok res ∧
      res.docs.length + res.errors.length
        = (supportedEntries [⟨"a.txt", "txt", false⟩, ⟨"b.pdf", "pdf", false⟩]).length :=
  c3_every_document_accounted ⟨false, 1000, [⟨"a.txt", "txt", false⟩, ⟨"b.pdf", "pdf", false⟩]⟩
    DEFAULT_MAX_ARCHIVE_SIZE
    (fun i => if i = 0 then DocOutcome.extracted ⟨"a.txt", .other, [], []⟩
      else DocOutcome.failed "b.pdf" "unparseable")
    [1, 0] (fun _ _ => "s") rfl (by decide) (by decide) (by decide)

/-- C6: the `docs` sequence of the final `AnalysisResult` is in original
archive enumeration order — position `i` holds the result of document `i` —
for every completion order of the concurrent per-document tasks. -/
theorem c6_docs_enumeration_order (input : ArchiveInput) (maxTotal : Nat)
    (outcome : Nat → DocOutcome) (schedule : List Nat)
    (summarize : List DocumentResult → AggregateData → String)
    (g : Nat → DocumentResult)
    (hread : input.corrupt = false) (hsize : input.totalSize ≤ maxTotal)
    (hsched : schedule.Perm
      (List.range (supportedEntries input.entries).length))
    (hsucc : ∀ i, outcome i = .extracted (g i)) :
    ∃ res, runPipeline input maxTotal outcome schedule summarize = .ok res ∧
      res.docs = (List.range (supportedEntries input.entries).length).map g := by
  refine ⟨_, runPipeline_ok input maxTotal outcome schedule summarize hread hsize,
    ?_⟩
  simp only [assembleResult]
  rw [pipelineSlots_perm _ _ _ hsched, List.filterMap_map]
  exact filterMap_congr_some _ g _ (fun i _ => by
    simp [Function.comp, slotDoc, hsucc i])

/-- Witness for C6: documents A, B, C with the scrambled completion order
[2, 0, 1] still land at positions 0, 1, 2. -/
theorem c6_docs_enumeration_order_witness :
    ∃ res, runPipeline
        ⟨false, 1000, [⟨"A", "txt", false⟩, ⟨"B", "pdf", false⟩, ⟨"C", "csv", false⟩]⟩
        DEFAULT_MAX_ARCHIVE_SIZE
        (fun i => DocOutcome.extracted ⟨["A", "B", "C"].getD i "", .other, [], []⟩)
        [2, 0, 1] (fun _ _ => "s") = .ok res ∧
      res.docs = (List.range (supportedEntries
          [⟨"A", "txt", false⟩, ⟨"B", "pdf", false⟩, ⟨"C", "csv", false⟩]).length).map
        (fun i => ⟨["A", "B", "C"].getD i "", .other, [], []⟩) :=
  c6_docs_enumeration_order
    ⟨false, 1000, [⟨"A", "txt", false⟩, ⟨"B", "pdf", false⟩, ⟨"C", "csv", false⟩]⟩
    DEFAULT_MAX_ARCHIVE_SIZE
    (fun i => DocOutcome.extracted ⟨["A", "B", "C"].getD i "", .other, [], []⟩)
    [2, 0, 1] (fun _ _ => "s")
    (fun i => ⟨["A", "B", "C"].getD i "", .other, [], []⟩)
    rfl (by decide) (by decide) (fun i => rfl)

/-- C5: the ExtractionClient is total — for every reply sequence it returns
a tagged outcome, success or degraded results are schema-conformant, a
degraded result is recorded among the docs (never as an error), the
all-malformed exhaustion path yields the empty degraded result, and only
transport-level exhaustion on every attempt produces a per-document error. -/
theorem c5_extraction_never_raises (docName : String) (cat : DocumentCategory)
    (r1 r2 r3 : LLMReply) :
    ((∃ r, extractDocument docName cat r1 r2 r3 = .success r) ∨
     (∃ r, extractDocument docName cat r1 r2 r3 = .degraded r) ∨
     (∃ m, extractDocument docName cat r1 r2 r3 = .transportFailed m)) ∧
    (∀ r, (extractDocument docName cat r1 r2 r3 = .success r ∨
           extractDocument docName cat r1 r2 r3 = .degraded r) →
      r.facts.length ≤ 5 ∧ r.red_flags.length ≤ 5) ∧
    (¬(r1 = .transportFail ∧ r2 = .transportFail ∧ r3 = .transportFail) →
      ∃ r, recordOutcome docName (extractDocument docName cat r1 r2 r3)
        = .extracted r) ∧
    ((r1 = .transportFail ∧ r2 = .transportFail ∧ r3 = .transportFail) →
      ∃ m, recordOutcome docName (extractDocument docName cat r1 r2 r3)
        = .failed docName m) ∧
    ((r1 = .malformed ∨ r1 = .transportFail) →
     (r2 = .malformed ∨ r2 = .transportFail) →
     (r3 = .malformed ∨ r3 = .transportFail) →
     ¬(r1 = .transportFail ∧ r2 = .transportFail ∧ r3 = .transportFail) →
      extractDocument docName cat r1 r2 r3
        = .degraded ⟨docName, cat, [], []⟩) := by
  refine ⟨?_, ?_, ?_, ?_, ?_⟩
  · rcases extractDocument_shape docName cat r1 r2 r3 with ⟨resp, h⟩ | h | h
    · exact Or.inl ⟨_, h⟩
    · exact Or.inr (Or.inl ⟨_, h⟩)
    · exact Or.inr (Or.inr ⟨_, h⟩)
  · intro r hr
    rcases extractDocument_shape docName cat r1 r2 r3 with ⟨resp, h⟩ | h | h
    · rcases hr with hr | hr
      · rw [h] at hr
        rw [← ExtractOutcome.success.inj hr]
        exact enforceSchema_bounds docName cat resp
      · rw [h] at hr
        exact ExtractOutcome.noConfusion hr
    · rcases hr with hr | hr
      · rw [h] at hr
        exact ExtractOutcome.noConfusion hr
      · rw [h] at hr
        rw [← ExtractOutcome.degraded.inj hr]
        exact ⟨by simp, by simp⟩
    · rcases hr with hr | hr <;> rw [h] at hr <;> exact ExtractOutcome.noConfusion hr
  · intro hnot
    rcases extractDocument_shape docName cat r1 r2 r3 with ⟨resp, h⟩ | h | h
    · exact ⟨_, by rw [h]; rfl⟩
    · exact ⟨_, by rw [h]; rfl⟩
    · exact absurd ((extractDocument_transport_iff docName cat r1 r2 r3).mp
        ⟨_, h⟩) hnot
  · intro hall
    obtain ⟨m, h⟩ := (extractDocument_transport_iff docName cat r1 r2 r3).mpr hall
    exact ⟨m, by rw [h]; rfl⟩
  · intro h1 h2 h3 hnot
    cases r1 <;> cases r2 <;> cases r3 <;>
      first
        | rfl
        | (rcases h1 with h | h <;> exact LLMReply.noConfusion h)
        | (rcases h2 with h | h <;> exact LLMReply.noConfusion h)
        | (rcases h3 with h | h <;> exact LLMReply.noConfusion h)
        | exact absurd ⟨rfl, rfl, rfl⟩ hnot

/-- Witness for C5: three malformed replies exhaust the retries and yield
the empty degraded result. -/
theorem c5_extraction_never_raises_witness :
    extractDocument "doc.pdf" .financial .malformed .malformed .malformed
      = .degraded ⟨"doc.pdf", .financial, [], []⟩ :=
  (c5_extraction_never_raises "doc.pdf" .financial
    .malformed .malformed .malformed).2.2.2.2
    (Or.inl rfl) (Or.inl rfl) (Or.inl rfl) (by decide)

/-- C9: every failing `analyzeFile` run (validation failure, API error or
any other thrown error) ends with `result` still none, a non-null `error`,
progress status `error` and `isAnalyzing` false; a successful run ends with
`result` set, `error` still none and status `complete`. -/
theorem c9_hook_failure_and_success (file : FileInfo) (api : ApiOutcome) :
    (analyzeFileRun file api).isAnalyzing = false ∧
    ((validateFile file).valid = false ∨ (∀ r, api ≠ .ok r) →
      (analyzeFileRun file api).result = none ∧
      (∃ m, (analyzeFileRun file api).error = some m) ∧
      (analyzeFileRun file api).progress.status = .error) ∧
    (∀ r, (validateFile file).valid = true → api = .ok r →
      (analyzeFileRun file api).result = some r ∧
      (analyzeFileRun file api).error = none ∧
      (analyzeFileRun file api).progress.status = .complete) := by
  refine ⟨?_, ?_, ?_⟩
  · simp only [analyzeFileRun]
    split_ifs <;> cases api <;> rfl
  · intro hfail
    rcases Bool.eq_false_or_eq_true (validateFile file).valid with hv | hv
    · rcases hfail with hf | hf
      · rw [hv] at hf
        exact absurd hf (by simp)
      · cases api with
        | ok r => exact absurd rfl (hf r)
        | apiErr m => simp [analyzeFileRun, hv, errorStageProgress]
        | otherErr => simp [analyzeFileRun, hv, errorStageProgress]
    · simp [analyzeFileRun, hv, errorStageProgress]
  · intro r hv hok
    subst hok
    simp [analyzeFileRun, hv]

/-- Witness for C9: a valid zip whose API call throws an `ApiError` ends
with no result, a message in `error` and status `error`. -/
theorem c9_hook_failure_and_success_witness :
    (analyzeFileRun ⟨"a.zip", "application/zip", 100⟩ (.apiErr "boom")).result
      = none ∧
    (∃ m, (analyzeFileRun ⟨"a.zip", "application/zip", 100⟩
      (.apiErr "boom")).error = some m) ∧
    (analyzeFileRun ⟨"a.zip", "application/zip", 100⟩
      (.apiErr "boom")).progress.status = .error :=
  (c9_hook_failure_and_success ⟨"a.zip", "application/zip", 100⟩
    (.apiErr "boom")).2.1 (Or.inr (fun _ h => ApiOutcome.noConfusion h))
